import Mathlib

set_option autoImplicit false

/-
Shallow embedding of the tyminator virtual-clock library
(src/tyminator/clock.py) and of the attribute-patching utility
(src/pytest_timing/util/monkey_patch.py).

Time is modelled in integer microseconds, the resolution of Python
datetime/timedelta values.  A naive `datetime.datetime` is an `Int`
(microseconds since an arbitrary epoch); an aware datetime carries a fixed
utcoffset, also in microseconds.  Floating-point changes (`from_change` on a
`float`) are outside the embedding; every verified claim exercises only the
integer and timedelta forms, which are exact.

POSIX timestamps (`datetime.timestamp()`) depend on the host local timezone
only through a fixed strictly monotone affine encoding of the instant;
`py_timestamp` models that encoding.  The claims constrain only which
instant a timestamp is taken of, never the numeric encoding itself.

Action callables are modelled by `Action`: an identity (Python object
identity / default equality), whether `asyncio.iscoroutinefunction` holds of
it, and whether invoking it raises.  Actions in this embedding do not
themselves mutate the clock: a reentrant `elapse` from inside an action is
rejected by the lock, and `time_function` degrades to a read, so the claims
under verification only ever fire observing or raising actions.

In the source, `Clock.__event_queue` is declared as a class attribute with a
mutable list default (`__event_queue: list[__Event] = []`, clock.py line 58)
and `__init__` never assigns a per-instance queue; every instance therefore
shares one list, which all methods mutate in place.  The embedding makes
that explicit: the queue is passed alongside the instance state rather than
stored in `Clock`, so two instances sharing the class-level queue are two
`Clock` values threaded through the same `List Event`.
-/

namespace Tyminator

/-- Python exception values raised by the modelled code.  `actionError i`
stands for an arbitrary exception raised by the action callable with
identity `i` (see `Action.raises`).  `typeError` is raised when two
callables are compared with `<` (callables are unorderable in Python). -/
inductive PyErr where
  | valueError (msg : String)
  | typeError
  | lockError (msg : String)
  | notImplementedError
  | actionError (id : Nat)
deriving DecidableEq

/-- microseconds per second: `datetime.timedelta(seconds=n)` is `n * 1000000`
microseconds. -/
def usecPerSec : Int := 1000000

/-- A `datetime.datetime`: naive reading `dt` in microseconds plus an
optional fixed utcoffset (`tzinfo`), in microseconds. -/
structure PyDateTime where
  dt : Int
  tz : Option Int
deriving DecidableEq

/-- Argument to the `step` parameter: `int` or `datetime.timedelta`
(clock.py line 18, `Step = Union[int, datetime.timedelta]`). -/
inductive StepArg where
  | ofInt (n : Int)
  | ofTimedelta (usec : Int)
deriving DecidableEq

/-- Argument to a `change` parameter: `int` or `datetime.timedelta`.  The
`float` member of the source union is outside the embedding (binary
floating point); no verified claim passes a float. -/
inductive ChangeArg where
  | ofInt (n : Int)
  | ofTimedelta (usec : Int)
deriving DecidableEq

/-- clock.py `from_step`: an `int` becomes `timedelta(seconds=step)`, a
timedelta is returned unchanged.  No positivity check is performed. -/
def from_step : StepArg → Int
  | .ofInt n => n * usecPerSec
  | .ofTimedelta d => d

/-- clock.py `from_change`: an `int` is converted through `float` to
`timedelta(seconds=change)` (exact for the integers any claim uses), a
timedelta is returned unchanged. -/
def from_change : ChangeArg → Int
  | .ofInt n => n * usecPerSec
  | .ofTimedelta d => d

/-- An action callable handed to `run_at`/`run_in`/`run_in_steps`:
`id` is its Python object identity (default `==`), `isCoroutine` the value
of `asyncio.iscoroutinefunction(action)`, and `raises` whether calling it
raises an exception. -/
structure Action where
  id : Nat
  isCoroutine : Bool
  raises : Bool
deriving DecidableEq

/-- `Clock.__Event`: a scheduled `(when, action)` pair (clock.py lines
45-50). -/
structure Event where
  when : Int
  action : Action
deriving DecidableEq

/-- One comparison step of `Clock.__Event.SORT_KEY = attrgetter("when",
"action")` under `list.sort`: Python compares the key tuples with `<`.
Tuple comparison first tests the `when` components for equality; on a tie
it tests the actions for equality (object identity for callables) and, when
they differ, evaluates `action < action`, which raises `TypeError` because
callables are unorderable. -/
def keyLt (e f : Event) : Except PyErr Bool :=
  if e.when = f.when then
    if e.action = f.action then .ok false
    else .error .typeError
  else .ok (decide (e.when < f.when))

/-- Insert an event into an already-processed prefix, placing it after all
events whose key is not greater (the stable placement `list.sort`
produces).  Propagates the `TypeError` of an impossible key comparison. -/
def insertSorted (e : Event) : List Event → Except PyErr (List Event)
  | [] => .ok [e]
  | f :: rest => do
    let b ← keyLt e f
    if b then
      .ok (e :: f :: rest)
    else do
      let r ← insertSorted e rest
      .ok (f :: r)

/-- `self.__event_queue.sort(key=self.__Event.SORT_KEY)` (clock.py line
227): a stable sort by the `(when, action)` key.  On a comparator failure
CPython raises and leaves the list an unspecified permutation of its
elements; on success any stable sort agrees, so a stable insertion sort is
used. -/
def pySortEvents (l : List Event) : Except PyErr (List Event) :=
  l.foldlM (fun acc e => insertSorted e acc) []

/-- The per-instance state of `Clock` (clock.py lines 44-260).  The event
queue is deliberately absent: in the source it is a class attribute shared
by every instance (see the header comment), so operations take and return
it separately. -/
structure Clock where
  current : Int
  start : Int
  local_tz : Int
  step : Int
  is_locked : Bool
  mark_seq : Int
deriving DecidableEq

/-- `Clock.__init__` (clock.py lines 61-73): rejects an aware `start`,
stores `start` as both `start` and `current`, and normalizes `step` with
`from_step`.  No validation of the step value is performed. -/
def Clock.init (startArg : PyDateTime) (step : StepArg) (local_tz : Int) :
    Except PyErr Clock :=
  if startArg.tz ≠ none then
    .error (.valueError "start may not have tzinfo")
  else
    .ok { current := startArg.dt, start := startArg.dt, local_tz := local_tz,
          step := from_step step, is_locked := false, mark_seq := 0 }

/-- `Clock.as_naive` (clock.py lines 127-132): an aware datetime is first
converted to the local offset when its offset differs, then stripped of its
tzinfo; a naive datetime passes through. -/
def Clock.as_naive (c : Clock) (d : PyDateTime) : Int :=
  match d.tz with
  | none => d.dt
  | some off => if off = c.local_tz then d.dt else d.dt - off + c.local_tz

/-- `datetime.timestamp()` of a naive datetime: a fixed strictly monotone
affine encoding of the instant (host-local interpretation); modelled by the
identity on microsecond readings, which is faithful for every claim about
which instant a timestamp belongs to. -/
def py_timestamp (dt : Int) : Int := dt

/-- `Clock.run_at` (clock.py lines 221-227): coerce `when` to naive, reject
instants before `current` with `ValueError` before any queue mutation, then
append the event to the (class-level) queue and re-sort it by `SORT_KEY`.
When the sort comparator raises, the queue keeps its elements (the new
event was already appended) in an order the claims never rely on. -/
def Clock.run_at (c : Clock) (q : List Event) (action : Action)
    (whenArg : PyDateTime) : List Event × Option PyErr :=
  let w := c.as_naive whenArg
  if w < c.current then
    (q, some (.valueError "time must be in the future"))
  else
    match pySortEvents (q ++ [⟨w, action⟩]) with
    | .ok sortedQ => (sortedQ, none)
    | .error e => (q ++ [⟨w, action⟩], some e)

/-- `Clock.run_in` (clock.py lines 229-231). -/
def Clock.run_in (c : Clock) (q : List Event) (action : Action)
    (change : ChangeArg) : List Event × Option PyErr :=
  c.run_at q action ⟨c.current + from_change change, none⟩

/-- `Clock.run_in_steps` (clock.py lines 233-235). -/
def Clock.run_in_steps (c : Clock) (q : List Event) (action : Action)
    (steps : Int) : List Event × Option PyErr :=
  c.run_in q action (.ofTimedelta (c.step * steps))

/-- `Clock.__run_pending_events` (clock.py lines 145-153): while the queue
head is due (`when <= until`), set `current` to its `when`, pop it, then
either raise `NotImplementedError` for a coroutine action or invoke the
action.  Returns the remaining queue, the final `current`, the events whose
actions were invoked (in invocation order; each invocation observes
`current` equal to the event `when`), and the first propagated error. -/
def runPending (til : Int) : List Event → Int →
    List Event × Int × List Event × Option PyErr
  | [], cur => ([], cur, [], none)
  | e :: rest, cur =>
    if e.when ≤ til then
      if e.action.isCoroutine then
        (rest, e.when, [], some .notImplementedError)
      else if e.action.raises then
        (rest, e.when, [e], some (.actionError e.action.id))
      else
        let r := runPending til rest e.when
        (r.1, r.2.1, e :: r.2.2.1, r.2.2.2)
    else
      (e :: rest, cur, [], none)

/-- Result of `Clock.elapse`: post state of the instance, post state of the
class-level queue, the fired events in order, and the propagated error if
any. -/
structure ElapseResult where
  clock : Clock
  queue : List Event
  fired : List Event
  err : Option PyErr
deriving DecidableEq

/-- `Clock.elapse` (clock.py lines 155-163): normalize the change, reject a
negative change with `ValueError`, acquire the lock (raising `LockError`
when already held, leaving all state untouched), run the pending events up
to `current + change`, set `current` to the target on the success path, and
release the lock on every exit path of the `with` block. -/
def Clock.elapse (c : Clock) (q : List Event) (change : ChangeArg) :
    ElapseResult :=
  let ch := from_change change
  if ch < 0 then
    ⟨c, q, [], some (.valueError "change must be positive or zero")⟩
  else if c.is_locked then
    ⟨c, q, [], some (.lockError "already locked")⟩
  else
    let nextDt := c.current + ch
    let r := runPending nextDt q c.current
    match r.2.2.2 with
    | some e => ⟨{ c with current := r.2.1, is_locked := false }, r.1,
                 r.2.2.1, some e⟩
    | none => ⟨{ c with current := nextDt, is_locked := false }, r.1,
               r.2.2.1, none⟩

/-- `Clock.elapse_steps` (clock.py lines 165-166): `elapse(step * steps)`
with the product a timedelta. -/
def Clock.elapse_steps (c : Clock) (q : List Event) (steps : Int) :
    ElapseResult :=
  c.elapse q (.ofTimedelta (c.step * steps))

/-- Result of `Clock.time_function`: post states, the returned timestamp
(`none` when an uncaught exception propagates), fired events, and the
propagated error if any. -/
structure TimeFnResult where
  clock : Clock
  queue : List Event
  ret : Option Int
  fired : List Event
  err : Option PyErr
deriving DecidableEq

/-- `Clock.time_function` (clock.py lines 179-183) composed with
`next_timestamp` (lines 197-200) and `next_datetime` (lines 168-171): read
`current_timestamp`, advance by one step, and return the pre-advance
timestamp; a `LockError` raised by the advance is caught and the current
timestamp returned unchanged.  Any other exception propagates. -/
def Clock.time_function (c : Clock) (q : List Event) : TimeFnResult :=
  let ts := py_timestamp c.current
  let r := c.elapse_steps q 1
  match r.err with
  | some (.lockError _) =>
    ⟨r.clock, r.queue, some (py_timestamp r.clock.current), r.fired, none⟩
  | some e => ⟨r.clock, r.queue, none, r.fired, some e⟩
  | none => ⟨r.clock, r.queue, some ts, r.fired, none⟩

/-- `k` successive calls of `time_function`, collecting each returned
timestamp and propagated error in call order. -/
def timeFunctionCalls : Nat → Clock → List Event →
    Clock × List Event × List (Option Int × Option PyErr)
  | 0, c, q => (c, q, [])
  | k + 1, c, q =>
    let r := c.time_function q
    let rest := timeFunctionCalls k r.clock r.queue
    (rest.1, rest.2.1, (r.ret, r.err) :: rest.2.2)

/-- `monkey_patch.Spec` (monkey_patch.py lines 12-45): a target named by
module name and dotted attribute path. -/
structure Spec where
  module_name : String
  qualified_name : String
deriving DecidableEq

/-- The live attribute bindings reachable through the module registry: a
total map from spec to current value. -/
abbrev Env (V : Type) : Type := Spec → V

/-- `setattr(parent, spec.name, obj)` (monkey_patch.py line 62): rebind one
target, leaving every other binding unchanged. -/
def pySetattr {V : Type} (env : Env V) (s : Spec) (v : V) : Env V :=
  fun t => if t = s then v else env t

/-- `monkey_patch.Patch` (monkey_patch.py lines 48-69): an original value
captured at construction plus its spec. -/
structure Patch (V : Type) where
  original_obj : V
  spec : Spec

/-- `Patch.install` (monkey_patch.py lines 54-62). -/
def Patch.install {V : Type} (p : Patch V) (obj : V) (env : Env V) : Env V :=
  pySetattr env p.spec obj

/-- `Patch.restore` (monkey_patch.py lines 64-65): reinstall the captured
original value. -/
def Patch.restore {V : Type} (p : Patch V) (env : Env V) : Env V :=
  p.install p.original_obj env

/-- `Patch.from_spec` (monkey_patch.py lines 67-69): capture the live value
of the spec. -/
def Patch.from_spec {V : Type} (s : Spec) (env : Env V) : Patch V :=
  ⟨env s, s⟩

/-- `monkey_patch.PatchSet` (monkey_patch.py lines 84-131): an
insertion-ordered mapping from logical name to patch, fixed at
construction. -/
structure PatchSet (V : Type) where
  patches : List (String × Patch V)

/-- `PatchSet.__init__` (monkey_patch.py lines 89-93): one captured patch
per named spec. -/
def PatchSet.ofSpecs {V : Type} (kwargs : List (String × Spec))
    (env : Env V) : PatchSet V :=
  ⟨kwargs.map fun ns => (ns.1, Patch.from_spec ns.2 env)⟩

/-- `xs.keys() - ys.keys()`: the names of `xs` absent from `ys` (both key
views are duplicate-free in Python). -/
def keysDiff (xs ys : List String) : List String :=
  xs.filter fun x => decide (x ∉ ys)

/-- String comparison used by Python `sorted` on names (lexicographic). -/
def strLe (a b : String) : Bool := compare a b != Ordering.gt

/-- Insertion step of a stable sort by `strLe`. -/
def insertStr (x : String) : List String → List String
  | [] => [x]
  | y :: ys => if strLe x y then x :: y :: ys else y :: insertStr x ys

/-- `sorted(names)`. -/
def sortStrings : List String → List String
  | [] => []
  | x :: xs => insertStr x (sortStrings xs)

/-- `", ".join(sorted(names))` (monkey_patch.py lines 98 and 103). -/
def sortedJoin (xs : List String) : String :=
  String.intercalate ", " (sortStrings xs)

/-- `PatchSet.install` (monkey_patch.py lines 95-107): reject a missing or
unexpected keyword-name set with `ValueError` (offending names sorted)
before touching any binding; otherwise install every replacement in patch
order. -/
def PatchSet.install {V : Type} [Inhabited V] (ps : PatchSet V)
    (kwargs : List (String × V)) (env : Env V) : Env V × Option PyErr :=
  let psNames := ps.patches.map Prod.fst
  let kwNames := kwargs.map Prod.fst
  let missing := keysDiff psNames kwNames
  if missing ≠ [] then
    (env, some (.valueError ("missing patches: " ++ sortedJoin missing)))
  else
    let unexpected := keysDiff kwNames psNames
    if unexpected ≠ [] then
      (env, some (.valueError ("unexpected patches: " ++ sortedJoin unexpected)))
    else
      (ps.patches.foldl
        (fun e np => np.2.install ((kwargs.lookup np.1).getD default) e)
        env, none)

/-- `PatchSet.restore` (monkey_patch.py lines 109-111): restore every
contained patch, in patch order, regardless of the current live state. -/
def PatchSet.restore {V : Type} (ps : PatchSet V) (env : Env V) : Env V :=
  ps.patches.foldl (fun e np => np.2.restore e) env

end Tyminator

namespace Tyminator

theorem runPending_coroutine (til : Int) (e : Event) (q2 : List Event)
    (hco : e.action.isCoroutine = true) (hdue : e.when ≤ til) :
    ∀ (q1 : List Event) (cur : Int),
      (∀ f ∈ q1, f.action.isCoroutine = false ∧ f.action.raises = false) →
      (∀ f ∈ q1, f.when ≤ e.when) →
      runPending til (q1 ++ e :: q2) cur =
        (q2, e.when, q1, some PyErr.notImplementedError) := by
  intro q1
  induction q1 with
  | nil =>
    intro cur _ _
    simp [runPending, hdue, hco]
  | cons f t ih =>
    intro cur h1 h2
    have hf := h1 f (List.mem_cons_self f t)
    have hfw : f.when ≤ til := le_trans (h2 f (List.mem_cons_self f t)) hdue
    have ihres := ih f.when (fun g hg => h1 g (List.mem_cons_of_mem f hg))
      (fun g hg => h2 g (List.mem_cons_of_mem f hg))
    simp [runPending, hfw, hf.1, hf.2, ihres]

/-- C10: an event whose action is a coroutine function, once it becomes due
during `elapse` (after the earlier, ordinary, non-raising due events have
fired), makes `elapse` stop with `NotImplementedError` instead of invoking
the action; the event is already removed from the queue, `current` already
equals its scheduled instant, and the error propagates to the `elapse`
caller. -/
theorem elapse_stops_at_coroutine_event (c : Clock) (q1 q2 : List Event)
    (e : Event) (change : ChangeArg)
    (hlock : c.is_locked = false) (hch : 0 ≤ from_change change)
    (h1 : ∀ f ∈ q1, f.action.isCoroutine = false ∧ f.action.raises = false)
    (h2 : ∀ f ∈ q1, f.when ≤ e.when)
    (hco : e.action.isCoroutine = true)
    (hdue : e.when ≤ c.current + from_change change) :
    c.elapse (q1 ++ e :: q2) change =
      ⟨{ c with current := e.when, is_locked := false }, q2, q1,
       some PyErr.notImplementedError⟩ := by
  have hrun := runPending_coroutine (c.current + from_change change) e q2 hco
    hdue q1 c.current h1 h2
  have hnotneg : ¬ from_change change < 0 := not_lt.mpr hch
  simp [Clock.elapse, hnotneg, hlock, hrun]

/-- C10 witness: a pending ordinary event at +1s and a coroutine event at
+2s; `elapse(3)` fires the first, then stops at the coroutine event with
`NotImplementedError`, leaving `current` at +2s and the queue empty. -/
theorem elapse_coroutine_witness :
    (⟨0, 0, 0, 1000000, false, 0⟩ : Clock).elapse
        [⟨1000000, ⟨1, false, false⟩⟩, ⟨2000000, ⟨2, true, false⟩⟩]
        (ChangeArg.ofInt 3) =
      ⟨⟨2000000, 0, 0, 1000000, false, 0⟩, [], [⟨1000000, ⟨1, false, false⟩⟩],
       some PyErr.notImplementedError⟩ := by
  have h := elapse_stops_at_coroutine_event ⟨0, 0, 0, 1000000, false, 0⟩
    [⟨1000000, ⟨1, false, false⟩⟩] [] ⟨2000000, ⟨2, true, false⟩⟩
    (ChangeArg.ofInt 3) rfl (by decide) (by decide) (by decide) rfl (by decide)
  simpa using h

/-- C9: the lock flag is exactly the in-progress-elapse guard.  Whenever
`elapse` is entered with the lock free it terminates (normally, with a
domain error, or by propagating an action or coroutine error) with the lock
free again; a nested `elapse` attempted while the lock is held fails with
the locked error and changes nothing, leaving the flag still held by the
outer critical section. -/
theorem elapse_lock_discipline (c : Clock) (q : List Event)
    (change : ChangeArg) :
    (c.is_locked = false → (c.elapse q change).clock.is_locked = false) ∧
    (c.is_locked = true → 0 ≤ from_change change →
      c.elapse q change =
        ⟨c, q, [], some (PyErr.lockError "already locked")⟩) := by
  constructor
  · intro h
    simp only [Clock.elapse]
    split
    · exact h
    · split
      · exact h
      · split <;> rfl
  · intro h hch
    have hnotneg : ¬ from_change change < 0 := not_lt.mpr hch
    simp [Clock.elapse, hnotneg, h]

/-- C9 witness: a free-lock elapse ends with the lock free, and a nested
elapse on a locked clock fails with the locked error leaving all state
unchanged. -/
theorem elapse_lock_discipline_witness :
    ((⟨0, 0, 0, 1000000, false, 0⟩ : Clock).elapse []
        (ChangeArg.ofInt 2)).clock.is_locked = false ∧
    (⟨0, 0, 0, 1000000, true, 0⟩ : Clock).elapse [] (ChangeArg.ofInt 2) =
      ⟨⟨0, 0, 0, 1000000, true, 0⟩, [], [],
       some (PyErr.lockError "already locked")⟩ :=
  ⟨(elapse_lock_discipline ⟨0, 0, 0, 1000000, false, 0⟩ [] (ChangeArg.ofInt 2)).1 rfl,
   (elapse_lock_discipline ⟨0, 0, 0, 1000000, true, 0⟩ [] (ChangeArg.ofInt 2)).2
     rfl (by decide)⟩

/-- C8: `run_at` with an instant that, after coercion to the naive
representation, precedes `current` always fails with the domain error and
performs no queue mutation. -/
theorem run_at_past_rejected (c : Clock) (q : List Event) (a : Action)
    (w : PyDateTime) (h : c.as_naive w < c.current) :
    c.run_at q a w =
      (q, some (PyErr.valueError "time must be in the future")) := by
  simp [Clock.run_at, h]

/-- C8 witness: scheduling five seconds before the current instant is
rejected and the queue is untouched. -/
theorem run_at_past_rejected_witness :
    (⟨0, 0, 0, 1000000, false, 0⟩ : Clock).run_at [] ⟨1, false, false⟩
        ⟨-5000000, none⟩ =
      ([], some (PyErr.valueError "time must be in the future")) :=
  run_at_past_rejected ⟨0, 0, 0, 1000000, false, 0⟩ [] ⟨1, false, false⟩
    ⟨-5000000, none⟩ (by decide)

/-- C4 (amended): on a clock with a non-negative step whose lock is held,
`time_function` does not raise, does not change any state, and returns
exactly `current_timestamp`. -/
theorem time_function_locked (c : Clock) (q : List Event)
    (hl : c.is_locked = true) (hs : 0 ≤ c.step) :
    c.time_function q = ⟨c, q, some (py_timestamp c.current), [], none⟩ := by
  have h1 : ¬ c.step < 0 := not_lt.mpr hs
  simp [Clock.time_function, Clock.elapse_steps, Clock.elapse, from_change,
    mul_one, h1, hl]

/-- C4 witness: a locked one-second-step clock returns its current
timestamp unchanged. -/
theorem time_function_locked_witness :
    (⟨3, 3, 0, 1000000, true, 0⟩ : Clock).time_function [] =
      ⟨⟨3, 3, 0, 1000000, true, 0⟩, [], some (py_timestamp 3), [], none⟩ :=
  time_function_locked ⟨3, 3, 0, 1000000, true, 0⟩ [] rfl (by decide)

/-- C4 counterexample: the claim as stated fails on a clock whose step is
the explicit duration minus one second (allowed by the constructor).  With
the lock held, `time_function` propagates the `ValueError` raised by
`elapse` on the negative change `step * 1` and returns nothing. -/
theorem c4_negative_step_locked_counterexample :
    ((⟨0, 0, 0, -1000000, true, 0⟩ : Clock).time_function []).err =
        some (PyErr.valueError "change must be positive or zero") ∧
      ((⟨0, 0, 0, -1000000, true, 0⟩ : Clock).time_function []).ret ≠
        some (py_timestamp 0) := by
  decide

/-- C3 (amended): on an unlocked clock with a non-negative step and an
empty event queue, `k` calls of `time_function` advance `current` by
exactly `k * step` and the i-th call returns the timestamp of
`current + i * step`, the instant immediately before that call advances. -/
theorem time_function_advances (k : Nat) :
    ∀ c : Clock, c.is_locked = false → 0 ≤ c.step →
      timeFunctionCalls k c [] =
        ({ c with current := c.current + (k : Int) * c.step }, [],
         (List.range k).map fun i : Nat =>
           (some (py_timestamp (c.current + (i : Int) * c.step)), none)) := by
  induction k with
  | zero =>
    intro c hl hs
    simp [timeFunctionCalls]
  | succ k ih =>
    intro c hl hs
    have hstep : ¬ c.step < 0 := not_lt.mpr hs
    have htf : c.time_function [] =
        ⟨{ c with current := c.current + c.step, is_locked := false }, [],
         some (py_timestamp c.current), [], none⟩ := by
      simp [Clock.time_function, Clock.elapse_steps, Clock.elapse,
        from_change, mul_one, hstep, hl, runPending]
    have hrest := ih { c with current := c.current + c.step, is_locked := false }
      rfl hs
    simp only [timeFunctionCalls, htf, hrest]
    refine Prod.ext ?_ (Prod.ext rfl ?_)
    · simp only [Clock.mk.injEq, hl, eq_self_iff_true, and_true, true_and]
      push_cast
      ring
    · rw [List.range_succ_eq_map, List.map_cons, List.map_map]
      simp only [py_timestamp, Nat.cast_zero, zero_mul, add_zero]
      congr 1
      refine List.map_congr_left ?_
      intro i hi
      simp only [Function.comp_apply, Prod.mk.injEq, Option.some.injEq,
        eq_self_iff_true, and_true, true_and]
      push_cast
      ring

/-- C3 witness: two calls on a clock at instant 5 with a one-second step
return the timestamps of instants 5 and 1000005 and leave the clock at
2000005. -/
theorem time_function_advances_witness :
    timeFunctionCalls 2 ⟨5, 5, 0, 1000000, false, 0⟩ [] =
      (⟨2000005, 5, 0, 1000000, false, 0⟩, [],
       [(some 5, none), (some 1000005, none)]) := by
  rw [time_function_advances 2 ⟨5, 5, 0, 1000000, false, 0⟩ rfl (by decide)]
  decide

/-- C3 counterexample: the claim as stated fails on a clock whose step is
the explicit duration minus one second.  The first call of `time_function`
raises `ValueError` (negative change), so `current` does not advance by
`1 * step` and no timestamp is returned. -/
theorem c3_negative_step_counterexample :
    (timeFunctionCalls 1 ⟨0, 0, 0, -1000000, false, 0⟩ []).1.current ≠
        0 + 1 * (-1000000) ∧
      (timeFunctionCalls 1 ⟨0, 0, 0, -1000000, false, 0⟩ []).2.2 =
        [(none, some (PyErr.valueError "change must be positive or zero"))] := by
  decide

/-- C5 (amended): constructing a clock with a non-positive integer step
succeeds with no domain error; the step is converted to a duration of that
many seconds and no positivity validation is performed. -/
theorem clock_init_nonpositive_step (startDt tzOff n : Int) (_hn : n ≤ 0) :
    Clock.init ⟨startDt, none⟩ (StepArg.ofInt n) tzOff =
      .ok ⟨startDt, startDt, tzOff, n * usecPerSec, false, 0⟩ := by
  simp [Clock.init, from_step]

/-- C5 witness: a step of minus three seconds is accepted. -/
theorem clock_init_nonpositive_step_witness :
    Clock.init ⟨10, none⟩ (StepArg.ofInt (-3)) 0 =
      .ok ⟨10, 10, 0, -3 * usecPerSec, false, 0⟩ :=
  clock_init_nonpositive_step 10 0 (-3) (by decide)

/-- C5 counterexample: constructing a clock with the integer step zero does
not fail, contrary to the claim that a zero or negative integer step is
rejected with a domain error. -/
theorem c5_zero_step_accepted_counterexample :
    Clock.init ⟨0, none⟩ (StepArg.ofInt 0) 0 = .ok ⟨0, 0, 0, 0, false, 0⟩ :=
  rfl

/-- C1: the sort key of the event queue is the tuple `(when, action)`, so
scheduling two distinct action callables at the same instant makes the
re-sort in `run_at` compare the callables and raise `TypeError`; events
sharing an instant are therefore not ordered by a pure stable FIFO
independent of the actions.  Here the first `run_at` succeeds and the
second, at the same `when` with a different action, fails. -/
theorem c1_run_at_equal_when_distinct_actions_typeerror :
    (let c : Clock := ⟨0, 0, 0, 1000000, false, 0⟩
     c.run_at [] ⟨1, false, false⟩ ⟨1000000, none⟩) =
        ([⟨1000000, ⟨1, false, false⟩⟩], none) ∧
      (let c : Clock := ⟨0, 0, 0, 1000000, false, 0⟩
       c.run_at [⟨1000000, ⟨1, false, false⟩⟩] ⟨2, false, false⟩
         ⟨1000000, none⟩).2 = some PyErr.typeError := by
  decide

/-- C2: `__event_queue` is a class attribute shared by every instance, so
scheduling on clock `a` and elapsing clock `b` makes `b` pop and fire the
event scheduled on `a`: `b` advances to the event instant, invokes the
action, and empties the queue `a` had filled.  The claimed per-instance
isolation does not hold. -/
theorem c2_shared_class_queue_cross_clock_fire :
    (let a : Clock := ⟨0, 0, 0, 1000000, false, 0⟩
     let b : Clock := ⟨0, 0, 0, 1000000, false, 0⟩
     let q1 := (a.run_in_steps [] ⟨7, false, false⟩ 1).1
     b.elapse_steps q1 1) =
      ⟨⟨1000000, 0, 0, 1000000, false, 0⟩, [], [⟨1000000, ⟨7, false, false⟩⟩],
       none⟩ := by
  decide

theorem patchset_restore_frame {V : Type} :
    ∀ (patches : List (String × Patch V)) (env1 : Env V) (s : Spec),
      s ∉ patches.map (fun np => np.2.spec) →
      patches.foldl (fun e np => np.2.restore e) env1 s = env1 s := by
  intro patches
  induction patches with
  | nil => intro env1 s _; rfl
  | cons p t ih =>
    intro env1 s hs
    simp only [List.map_cons, List.mem_cons, not_or] at hs
    rw [List.foldl_cons, ih _ s hs.2]
    simp [Patch.restore, Patch.install, pySetattr, hs.1]

theorem patchset_restore_captured {V : Type} (env0 : Env V) :
    ∀ (patches : List (String × Patch V)),
      (∀ np ∈ patches, np.2.original_obj = env0 np.2.spec) →
      ∀ (env1 : Env V) (s : Spec), s ∈ patches.map (fun np => np.2.spec) →
        patches.foldl (fun e np => np.2.restore e) env1 s = env0 s := by
  intro patches
  induction patches with
  | nil => intro _ env1 s hs; simp at hs
  | cons p t ih =>
    intro hcap env1 s hs
    rw [List.foldl_cons]
    by_cases hmem : s ∈ t.map (fun np => np.2.spec)
    · exact ih (fun np hnp => hcap np (List.mem_cons_of_mem p hnp)) _ s hmem
    · have hsp : s = p.2.spec := by
        simp only [List.map_cons, List.mem_cons] at hs
        tauto
      rw [patchset_restore_frame t _ s hmem]
      simp [Patch.restore, Patch.install, pySetattr, hsp,
        hcap p (List.mem_cons_self p t)]

/-- C6: building a patch set over named specs, installing replacements for
every name, then restoring, leaves every targeted attribute equal to the
value captured when the patch set was constructed. -/
theorem patchset_install_restore_roundtrip {V : Type} [Inhabited V]
    (specs : List (String × Spec)) (env0 : Env V)
    (kwargs : List (String × V))
    (_hnames : ∀ n, n ∈ specs.map Prod.fst ↔ n ∈ kwargs.map Prod.fst) :
    ∀ s ∈ specs.map Prod.snd,
      (PatchSet.ofSpecs specs env0).restore
        ((PatchSet.ofSpecs specs env0).install kwargs env0).1 s = env0 s := by
  intro s hs
  unfold PatchSet.restore
  apply patchset_restore_captured env0
  · intro np hnp
    simp only [PatchSet.ofSpecs, List.mem_map] at hnp
    obtain ⟨ns, hns, rfl⟩ := hnp
    rfl
  · simpa [PatchSet.ofSpecs, List.map_map, Function.comp, Patch.from_spec]
      using hs

/-- C6 witness: one spec, one replacement; after install and restore the
target holds its captured original value again. -/
theorem patchset_roundtrip_witness :
    (PatchSet.ofSpecs [("time", ⟨"time", "time"⟩)]
        (fun _ => 9 : Env Nat)).restore
      ((PatchSet.ofSpecs [("time", ⟨"time", "time"⟩)]
          (fun _ => 9 : Env Nat)).install [("time", 5)]
        (fun _ => 9 : Env Nat)).1
      ⟨"time", "time"⟩ = 9 :=
  patchset_install_restore_roundtrip [("time", ⟨"time", "time"⟩)]
    (fun _ => 9 : Env Nat) [("time", 5)] (fun _ => Iff.rfl)
    ⟨"time", "time"⟩ (by simp)

/-- C7: installing with a keyword-name set that differs from the configured
name set fails with a value error before any binding is modified; a missing
mismatch and an unexpected mismatch each enumerate the offending names in
sorted order. -/
theorem patchset_install_mismatch {V : Type} [Inhabited V]
    (specs : List (String × Spec)) (env0 : Env V)
    (kwargs : List (String × V))
    (hdiff : keysDiff (specs.map Prod.fst) (kwargs.map Prod.fst) ≠ [] ∨
      keysDiff (kwargs.map Prod.fst) (specs.map Prod.fst) ≠ []) :
    ((PatchSet.ofSpecs specs env0).install kwargs env0).1 = env0 ∧
    ((PatchSet.ofSpecs specs env0).install kwargs env0).2 =
      some (PyErr.valueError
        (if keysDiff (specs.map Prod.fst) (kwargs.map Prod.fst) ≠ [] then
           "missing patches: " ++
             sortedJoin (keysDiff (specs.map Prod.fst) (kwargs.map Prod.fst))
         else
           "unexpected patches: " ++
             sortedJoin (keysDiff (kwargs.map Prod.fst) (specs.map Prod.fst)))) := by
  have hnames : (PatchSet.ofSpecs specs env0).patches.map Prod.fst =
      specs.map Prod.fst := by
    simp [PatchSet.ofSpecs, List.map_map, Function.comp]
  by_cases hmiss : keysDiff (specs.map Prod.fst) (kwargs.map Prod.fst) = []
  · have hunexp : keysDiff (kwargs.map Prod.fst) (specs.map Prod.fst) ≠ [] := by
      tauto
    constructor <;> simp [PatchSet.install, hnames, hmiss, hunexp]
  · constructor <;> simp [PatchSet.install, hnames, hmiss]

/-- C7 witness: installing nothing into a two-name patch set fails with the
missing names listed in sorted order and the environment untouched. -/
theorem patchset_install_mismatch_witness :
    ((PatchSet.ofSpecs [("b", ⟨"m", "x"⟩), ("a", ⟨"m", "y"⟩)]
        (fun _ => 0 : Env Nat)).install [] (fun _ => 0 : Env Nat)).1 =
      (fun _ => 0 : Env Nat) ∧
    ((PatchSet.ofSpecs [("b", ⟨"m", "x"⟩), ("a", ⟨"m", "y"⟩)]
        (fun _ => 0 : Env Nat)).install [] (fun _ => 0 : Env Nat)).2 =
      some (PyErr.valueError "missing patches: a, b") := by
  have h := patchset_install_mismatch
    [("b", ⟨"m", "x"⟩), ("a", ⟨"m", "y"⟩)] (fun _ => 0 : Env Nat) []
    (Or.inl (by decide))
  refine ⟨h.1, ?_⟩
  rw [h.2]
  decide

end Tyminator
